import Mathlib

/-!
Moose documentation site: the MathJax integration script.

A verification development for `src/javascripts/mathjax.js`.  The script does two
things, in this order:

1. it assigns one object literal to the global binding `window.MathJax`;
2. it calls `document$.subscribe` with one arrow function whose body is the single
   expression statement `MathJax.typesetPromise()`.

The object literal is embedded as a value of `JSValue`; the two statements are
embedded as functions on an explicit `World`.
-/

namespace Moose

/-! ## JavaScript values -/

/-- The JavaScript values the script builds, reads or receives: `undefined`, booleans,
strings, array literals, object literals (an object keeps its properties in source order)
and functions supplied by the page, whose code is outside the script. -/
inductive JSValue where
  | undefined : JSValue
  | bool (b : Bool) : JSValue
  | str (s : String) : JSValue
  | arr (items : List JSValue) : JSValue
  | obj (fields : List (String × JSValue)) : JSValue
  | fn (name : String) : JSValue

namespace JSValue

/-- Property read `v.key` (or `v[key]`): the value stored under `key`, and `undefined`
when `v` has no such own property or is not an object. -/
def get (v : JSValue) (key : String) : JSValue :=
  match v with
  | obj fields => (fields.lookup key).getD undefined
  | _ => undefined

/-- Own property names of an object, as `Object.keys` lists them (source order). -/
def keys (v : JSValue) : List String :=
  match v with
  | obj fields => fields.map Prod.fst
  | _ => []

/-- Whether `v` has an own property named `key`. -/
def hasKey (v : JSValue) (key : String) : Bool :=
  v.keys.contains key

/-- Whether the value can be called: only a function can. -/
def isCallable (v : JSValue) : Bool :=
  match v with
  | fn _ => true
  | _ => false

/-- The elements of an array value; a value that is not an array has none. -/
def elems (v : JSValue) : Option (List JSValue) :=
  match v with
  | arr items => some items
  | _ => none

/-- The text of a string value. -/
def asString (v : JSValue) : Option String :=
  match v with
  | str s => some s
  | _ => none

/-- Reads an array of strings. -/
def asStringList (v : JSValue) : Option (List String) :=
  match v with
  | arr items => items.mapM asString
  | _ => none

/-- Reads one delimiter pair: a two-element array `[open, close]` of strings. -/
def asPair (v : JSValue) : Option (String × String) :=
  match v with
  | arr [str o, str c] => some (o, c)
  | _ => none

/-- Reads an array of delimiter pairs, in order. -/
def asPairList (v : JSValue) : Option (List (String × String)) :=
  match v with
  | arr items => items.mapM asPair
  | _ => none

end JSValue

open JSValue

/-! ## The configuration literal (source lines 1-14) -/

/-- The object literal on the right-hand side of `window.MathJax = ...`. -/
def mathJaxConfig : JSValue :=
  obj [
    ("tex", obj [
      ("inlineMath", arr [arr [str "\\(", str "\\)"]]),
      ("displayMath", arr [arr [str "\\[", str "\\]"]]),
      ("processEscapes", bool true),
      ("processEnvironments", bool true),
      ("packages", obj [("[+]", arr [str "mhchem"])])
    ]),
    ("loader", obj [("load", arr [str "[tex]/mhchem"])]),
    ("options", obj [
      ("ignoreHtmlClass", str ".*|"),
      ("processHtmlClass", str "arithmatex")
    ])
  ]

/-- The `tex` section of the configuration. -/
def texSection : JSValue := mathJaxConfig.get "tex"

/-- The `loader` section of the configuration. -/
def loaderSection : JSValue := mathJaxConfig.get "loader"

/-- The `options` section of the configuration. -/
def optionsSection : JSValue := mathJaxConfig.get "options"

/-- The module path under which the engine's loader finds a TeX extension package. -/
def texModulePath (package : String) : String := "[tex]/" ++ package

/-! ## Class-name patterns

The two `options` values are pattern texts that the engine reads as ECMAScript regular
expressions.  The embedding covers the part of the ECMAScript pattern grammar the two
texts use: alternatives separated by a bar, each a sequence of terms; a term is an atom,
optionally followed by a star; an atom is the wildcard or an ordinary character. -/

/-- The ECMAScript line terminators LF, CR, U+2028 and U+2029: the characters the
wildcard `.` does not match. -/
def isLineTerminator (c : Char) : Bool :=
  c.toNat == 10 || c.toNat == 13 || c.toNat == 8232 || c.toNat == 8233

/-- The ECMAScript syntax characters, which do not stand for themselves in a pattern. -/
def isSyntaxCharacter (c : Char) : Bool :=
  "^$\\.*+?()[]\x7b\x7d|".data.contains c

/-- Regular expressions over characters. -/
inductive Regex where
  | never : Regex
  | empty : Regex
  | char (c : Char) : Regex
  | dot : Regex
  | seq (a b : Regex) : Regex
  | alt (a b : Regex) : Regex
  | star (a : Regex) : Regex

namespace Regex

/-- Whether the expression matches the empty text. -/
def nullable : Regex → Bool
  | never => false
  | empty => true
  | char _ => false
  | dot => false
  | seq a b => nullable a && nullable b
  | alt a b => nullable a || nullable b
  | star _ => true

/-- The derivative: what remains to be matched once the character `c` has been read. -/
def deriv : Regex → Char → Regex
  | never, _ => never
  | empty, _ => never
  | char d, c => if c = d then empty else never
  | dot, c => if isLineTerminator c then never else empty
  | seq a b, c =>
    if nullable a then alt (seq (deriv a c) b) (deriv b c) else seq (deriv a c) b
  | alt a b, c => alt (deriv a c) (deriv b c)
  | star a, c => seq (deriv a c) (star a)

/-- Whether the expression matches the whole text. -/
def fullMatch (r : Regex) (text : List Char) : Bool :=
  nullable (text.foldl deriv r)

/-- The sequence of the given terms, in order. -/
def ofTerms : List Regex → Regex
  | [] => empty
  | t :: ts => seq t (ofTerms ts)

/-- The disjunction of the given alternatives, in order. -/
def ofAlternatives : List Regex → Regex
  | [] => never
  | [a] => a
  | a :: as => alt a (ofAlternatives as)

end Regex

/-- Reads one atom: the wildcard, or a character that stands for itself. -/
def parseAtom (c : Char) : Option Regex :=
  if c = '.' then some Regex.dot
  else if isSyntaxCharacter c then none
  else some (Regex.char c)

/-- Reads the terms of one alternative. -/
def parseTerms : List Char → Option (List Regex)
  | [] => some []
  | c :: '*' :: rest =>
    match parseAtom c, parseTerms rest with
    | some atom, some ts => some (Regex.star atom :: ts)
    | _, _ => none
  | c :: rest =>
    match parseAtom c, parseTerms rest with
    | some atom, some ts => some (atom :: ts)
    | _, _ => none

/-- Cuts a pattern text at its bars. -/
def splitAlternatives : List Char → List (List Char)
  | [] => [[]]
  | c :: rest =>
    if c = '|' then [] :: splitAlternatives rest
    else
      match splitAlternatives rest with
      | [] => [[c]]
      | first :: others => (c :: first) :: others

/-- Reads a pattern text; `none` for a text outside the covered grammar. -/
def parsePattern (pattern : String) : Option Regex :=
  ((splitAlternatives pattern.data).mapM parseTerms).map
    (fun alternatives => Regex.ofAlternatives (alternatives.map Regex.ofTerms))

/-- Whether the pattern text, read as a regular expression, matches the whole of the
class name. -/
def matchesClassName (pattern : String) (name : String) : Bool :=
  match parsePattern pattern with
  | some r => r.fullMatch name.data
  | none => false

/-! ## The external collaborators -/

/-- A deferred value (a promise), in one of its three states. -/
inductive Deferred where
  | pending : Deferred
  | resolved (value : JSValue) : Deferred
  | rejected (error : JSValue) : Deferred

/-- How one call `MathJax.typesetPromise()` ends for its caller: the engine hands back
a deferred value, or the call throws synchronously. -/
inductive CallOutcome where
  | returned (d : Deferred) : CallOutcome
  | threw (error : JSValue) : CallOutcome

/-- The behaviour of the external typesetting engine, taken as a parameter: `engine k`
is the outcome of the call of its entry point made when `k` calls have been made before
it.  Nothing is assumed about it. -/
abbrev Engine := Nat → CallOutcome

/-- How the evaluation of a function body ends: normally with a value, or abruptly with
a thrown exception. -/
inductive Completion where
  | normal (value : JSValue) : Completion
  | abrupt (error : JSValue) : Completion

/-- Whether a completion is a thrown exception. -/
def Completion.raised : Completion → Bool
  | normal _ => false
  | abrupt _ => true

/-- The part of the page the script can touch: the global binding `window.MathJax`
(`undefined` until assigned) and the number of `MathJax.typesetPromise()` calls made. -/
structure PageState where
  windowMathJax : JSValue
  typesetCalls : Nat

/-- Whether the call `MathJax.typesetPromise()` can be made on this page: the global
`MathJax` has a property `typesetPromise` that is a function. -/
def PageState.typesetReady (page : PageState) : Bool :=
  (page.windowMathJax.get "typesetPromise").isCallable

/-- The exception a call expression raises when what it is to call is not a function. -/
def typeError : JSValue := obj [("name", str "TypeError")]

/-- A callback given to `document$.subscribe`: it receives the behaviour of the engine
(what a call that is really made answers), the value the signal carries and the page
state, in which it finds the global `MathJax`, and ends with a completion. -/
abbrev Handler := Engine → JSValue → PageState → PageState × Completion

/-- Modelled from the spec: the hosting page's navigation signal source `document$` is
not part of the repository.  Following the spec it is a list of subscribed handlers, held
for the page's lifetime; an exception that leaves a handler reaches the signal source,
which records it (`escaped`) and keeps the subscription. -/
structure World where
  page : PageState
  subscribers : List Handler
  escaped : List JSValue

/-- The page before the script runs: nothing assigned, nobody subscribed, no call made. -/
def World.initial : World :=
  { page := { windowMathJax := undefined, typesetCalls := 0 }, subscribers := [], escaped := [] }

/-- Modelled from the spec: `document$.subscribe(h)` registers `h` after the handlers
already there; the subscription object it returns is dropped by the script. -/
def subscribe (h : Handler) (w : World) : World :=
  { w with subscribers := w.subscribers ++ [h] }

/-! ## The script (source lines 1-20) -/

/-- The arrow function `() => { MathJax.typesetPromise() }` (lines 16-20).  It takes no
parameter, so the signal value is dropped.  Its body is one expression statement.  The
expression reads the property `typesetPromise` of the global `MathJax`, the binding the
script assigned on lines 1-14: when that property is not a function the expression raises
a `TypeError` and nothing is called.  Otherwise the call is made, a returned deferred
value is discarded and the body falls off its end (`undefined`).  There is no `try`, so
an exception ends the body abruptly. -/
def typesetHandler : Handler := fun engine _signal page =>
  if page.typesetReady then
    match engine page.typesetCalls with
    | CallOutcome.returned _ =>
      ({ page with typesetCalls := page.typesetCalls + 1 }, Completion.normal undefined)
    | CallOutcome.threw e =>
      ({ page with typesetCalls := page.typesetCalls + 1 }, Completion.abrupt e)
  else (page, Completion.abrupt typeError)

/-- The statement `window.MathJax = { ... };` (lines 1-14). -/
def assignConfig (w : World) : World :=
  { w with page := { w.page with windowMathJax := mathJaxConfig } }

/-- The statement `document$.subscribe(() => { ... })` (lines 16-20). -/
def subscribeHandler (w : World) : World :=
  subscribe typesetHandler w

/-- The whole script: the assignment, then the subscription. -/
def runScript (w : World) : World :=
  subscribeHandler (assignConfig w)

/-! ## Page events -/

/-- What happens on the page after the script has run: a navigation-complete signal
carrying a value, or the settlement (resolution or rejection) of the deferred value of
an earlier typesetting call. -/
inductive Event where
  | signal (value : JSValue) : Event
  | settle (call : Nat) (result : Deferred) : Event

/-- Whether an event is a navigation-complete signal. -/
def Event.isSignal : Event → Bool
  | signal _ => true
  | settle _ _ => false

/-- Invokes one handler on a signal value and records an exception that leaves it. -/
def invoke (engine : Engine) (value : JSValue) (w : World) (h : Handler) : World :=
  match h engine value w.page with
  | (page1, Completion.normal _) => { w with page := page1 }
  | (page1, Completion.abrupt e) => { w with page := page1, escaped := w.escaped ++ [e] }

/-- Modelled from the spec: delivery of one navigation-complete signal invokes every
subscribed handler once, in subscription order. -/
def deliver (engine : Engine) (value : JSValue) (w : World) : World :=
  w.subscribers.foldl (invoke engine value) w

/-- One event.  A handler has no way to attach a reaction to a deferred value other than
in its own body, and `typesetHandler` attaches none, so a settlement runs no code of the
script. -/
def step (engine : Engine) (w : World) : Event → World
  | Event.signal value => deliver engine value w
  | Event.settle _ _ => w

/-- A sequence of events, in order. -/
def run (engine : Engine) (w : World) (events : List Event) : World :=
  events.foldl (step engine) w

/-- The number of navigation-complete signals in a sequence of events. -/
def signalCount (events : List Event) : Nat :=
  (events.filter Event.isSignal).length

/-- The page state reached when the script has run on a fresh page and the given
events have then happened. -/
def afterScript (engine : Engine) (events : List Event) : World :=
  run engine (runScript World.initial) events

/-- Modelled from the spec: the initialisation of the external engine is not part of the
repository.  Following the spec it happens after the configuration has been assigned, and
it leaves the engine reachable through the global `MathJax`; the value `global` it leaves
there is a parameter. -/
def engineStart (global : JSValue) (w : World) : World :=
  { w with page := { w.page with windowMathJax := global } }

/-- The page state reached when the script has run on a fresh page, the engine has then
started, leaving `global` in `window.MathJax`, and the given events have then happened. -/
def afterEngineStart (global : JSValue) (engine : Engine) (events : List Event) : World :=
  run engine (engineStart global (runScript World.initial)) events

/-- A sample of the global `MathJax` once the engine has started: the configuration it
read and its entry point `typesetPromise`.  Used for concrete runs only. -/
def startedGlobal : JSValue :=
  obj [("config", mathJaxConfig), ("typesetPromise", fn "typesetPromise")]

/-- The inline-math delimiter pairs of the configuration, in order. -/
def inlineDelimiters : List (String × String) :=
  ((texSection.get "inlineMath").asPairList).getD []

/-- The display-math delimiter pairs of the configuration, in order. -/
def displayDelimiters : List (String × String) :=
  ((texSection.get "displayMath").asPairList).getD []

/-- The packages the configuration adds to the engine's default set. -/
def addedPackages : List String :=
  (((texSection.get "packages").get "[+]").asStringList).getD []

/-- The module paths the configuration asks the loader to fetch. -/
def loadedModules : List String :=
  ((loaderSection.get "load").asStringList).getD []

/-! ## Lemmas on pattern matching -/

namespace Regex

theorem fullMatch_nil (r : Regex) : fullMatch r [] = nullable r := rfl

theorem fullMatch_cons (r : Regex) (c : Char) (s : List Char) :
    fullMatch r (c :: s) = fullMatch (deriv r c) s := rfl

theorem fullMatch_never (s : List Char) : fullMatch never s = false := by
  induction s with
  | nil => rfl
  | cons c s ih => rw [fullMatch_cons]; exact ih

theorem fullMatch_empty (s : List Char) : fullMatch empty s = true ↔ s = [] := by
  cases s with
  | nil => simp [fullMatch_nil, nullable]
  | cons c s => simp [fullMatch_cons, deriv, fullMatch_never]

theorem fullMatch_alt (a b : Regex) (s : List Char) :
    fullMatch (alt a b) s = (fullMatch a s || fullMatch b s) := by
  induction s generalizing a b with
  | nil => rfl
  | cons c s ih => simp only [fullMatch_cons, deriv, ih]

theorem fullMatch_seq_never (b : Regex) (s : List Char) :
    fullMatch (seq never b) s = false := by
  induction s with
  | nil => rfl
  | cons c s ih => simpa [fullMatch_cons, deriv, nullable] using ih

theorem fullMatch_seq_empty_left (b : Regex) (s : List Char) :
    fullMatch (seq empty b) s = fullMatch b s := by
  cases s with
  | nil => simp [fullMatch_nil, nullable]
  | cons c s =>
    simp [fullMatch_cons, deriv, nullable, fullMatch_alt, fullMatch_seq_never]

theorem fullMatch_seq_empty_right (a : Regex) (s : List Char) :
    fullMatch (seq a empty) s = fullMatch a s := by
  induction s generalizing a with
  | nil => simp [fullMatch_nil, nullable]
  | cons c s ih =>
    rw [fullMatch_cons, fullMatch_cons]
    by_cases h : nullable a = true
    · simp [deriv, h, fullMatch_alt, fullMatch_never, ih]
    · simp [deriv, h, ih]

theorem fullMatch_seq_char (d : Char) (b : Regex) (s : List Char) :
    fullMatch (seq (char d) b) s = true ↔ ∃ t, s = d :: t ∧ fullMatch b t = true := by
  cases s with
  | nil => simp [fullMatch_nil, nullable]
  | cons c s =>
    rw [fullMatch_cons]
    by_cases h : c = d
    · subst h
      simp [deriv, nullable, fullMatch_seq_empty_left]
    · simp [deriv, nullable, h, fullMatch_seq_never]

/-- A sequence of ordinary characters matches that text and no other. -/
theorem fullMatch_literal (w s : List Char) :
    fullMatch (ofTerms (w.map char)) s = true ↔ s = w := by
  induction w generalizing s with
  | nil => simpa [ofTerms] using fullMatch_empty s
  | cons d w ih =>
    simp only [List.map_cons, ofTerms, fullMatch_seq_char, ih]
    constructor
    · rintro ⟨t, rfl, rfl⟩; rfl
    · intro h; exact ⟨w, h, rfl⟩

/-- The starred wildcard matches exactly the texts without a line terminator. -/
theorem fullMatch_star_dot (s : List Char) :
    fullMatch (star dot) s = true ↔ ∀ c ∈ s, isLineTerminator c = false := by
  induction s with
  | nil => simp [fullMatch_nil, nullable]
  | cons c s ih =>
    rw [fullMatch_cons]
    by_cases h : isLineTerminator c = true
    · simp [deriv, h, fullMatch_seq_never]
    · simp only [Bool.not_eq_true] at h
      simp [deriv, h, fullMatch_seq_empty_left, ih]

end Regex

/-! ## Lemmas on the page model -/

theorem invoke_subscribers (engine : Engine) (value : JSValue) (w : World) (h : Handler) :
    (invoke engine value w h).subscribers = w.subscribers := by
  unfold invoke
  split <;> rfl

theorem foldl_invoke_subscribers (engine : Engine) (value : JSValue) (hs : List Handler)
    (w : World) : (hs.foldl (invoke engine value) w).subscribers = w.subscribers := by
  induction hs generalizing w with
  | nil => rfl
  | cons h hs ih => rw [List.foldl_cons, ih, invoke_subscribers]

theorem deliver_subscribers (engine : Engine) (value : JSValue) (w : World) :
    (deliver engine value w).subscribers = w.subscribers :=
  foldl_invoke_subscribers engine value w.subscribers w

theorem step_subscribers (engine : Engine) (w : World) (e : Event) :
    (step engine w e).subscribers = w.subscribers := by
  cases e with
  | signal value => exact deliver_subscribers engine value w
  | settle call result => rfl

theorem run_subscribers (engine : Engine) (w : World) (events : List Event) :
    (run engine w events).subscribers = w.subscribers := by
  induction events generalizing w with
  | nil => rfl
  | cons e events ih =>
    show (run engine (step engine w e) events).subscribers = w.subscribers
    rw [ih, step_subscribers]

theorem deliver_single (engine : Engine) (value : JSValue) (w : World)
    (h : w.subscribers = [typesetHandler]) :
    deliver engine value w = invoke engine value w typesetHandler := by
  unfold deliver
  rw [h]
  rfl

theorem invoke_typesetHandler_page (engine : Engine) (value : JSValue) (w : World)
    (hr : w.page.typesetReady = true) :
    (invoke engine value w typesetHandler).page =
      { w.page with typesetCalls := w.page.typesetCalls + 1 } := by
  unfold invoke typesetHandler
  rw [if_pos hr]
  cases engine w.page.typesetCalls <;> rfl

theorem invoke_typesetHandler_absent (engine : Engine) (value : JSValue) (w : World)
    (hr : w.page.typesetReady = false) :
    invoke engine value w typesetHandler = { w with escaped := w.escaped ++ [typeError] } := by
  unfold invoke typesetHandler
  simp [hr]

theorem runScript_subscribers_initial :
    (runScript World.initial).subscribers = [typesetHandler] := rfl

/-- After the script has run on a fresh page, every later state has exactly the script's
handler subscribed. -/
theorem reachable_subscribers (engine : Engine) (events : List Event) :
    (run engine (runScript World.initial) events).subscribers = [typesetHandler] := by
  rw [run_subscribers]; rfl

theorem step_page_single (engine : Engine) (w : World) (e : Event)
    (h : w.subscribers = [typesetHandler]) (hr : w.page.typesetReady = true) :
    (step engine w e).page =
      { w.page with typesetCalls := w.page.typesetCalls + (if e.isSignal then 1 else 0) } := by
  cases e with
  | signal value =>
    show (deliver engine value w).page = _
    rw [deliver_single engine value w h, invoke_typesetHandler_page engine value w hr]
    rfl
  | settle call result => rfl

theorem run_page_single (engine : Engine) (w : World) (events : List Event)
    (h : w.subscribers = [typesetHandler]) (hr : w.page.typesetReady = true) :
    (run engine w events).page =
      { w.page with typesetCalls := w.page.typesetCalls + signalCount events } := by
  induction events generalizing w with
  | nil => rfl
  | cons e events ih =>
    show (run engine (step engine w e) events).page = _
    have hstep := step_page_single engine w e h hr
    have hr1 : (step engine w e).page.typesetReady = true := by
      rw [hstep]; exact hr
    rw [ih _ ((step_subscribers engine w e).trans h) hr1, hstep]
    cases e with
    | signal value => simp [signalCount, Event.isSignal, List.filter]; omega
    | settle call result => simp [signalCount, Event.isSignal, List.filter]

theorem step_page_absent (engine : Engine) (w : World) (e : Event)
    (h : w.subscribers = [typesetHandler]) (hr : w.page.typesetReady = false) :
    (step engine w e).page = w.page := by
  cases e with
  | signal value =>
    show (deliver engine value w).page = _
    rw [deliver_single engine value w h, invoke_typesetHandler_absent engine value w hr]
  | settle call result => rfl

theorem run_page_absent (engine : Engine) (w : World) (events : List Event)
    (h : w.subscribers = [typesetHandler]) (hr : w.page.typesetReady = false) :
    (run engine w events).page = w.page := by
  induction events generalizing w with
  | nil => rfl
  | cons e events ih =>
    show (run engine (step engine w e) events).page = _
    have hstep := step_page_absent engine w e h hr
    have hr1 : (step engine w e).page.typesetReady = false := by
      rw [hstep]; exact hr
    rw [ih _ ((step_subscribers engine w e).trans h) hr1, hstep]

theorem step_no_subscribers (engine : Engine) (w : World) (e : Event)
    (h : w.subscribers = []) : step engine w e = w := by
  cases e with
  | signal value =>
    show deliver engine value w = w
    unfold deliver
    rw [h]
    rfl
  | settle call result => rfl

theorem run_no_subscribers (engine : Engine) (w : World) (events : List Event)
    (h : w.subscribers = []) : run engine w events = w := by
  induction events with
  | nil => rfl
  | cons e events ih =>
    show run engine (step engine w e) events = w
    rw [step_no_subscribers engine w e h, ih]

theorem afterScript_page (engine : Engine) (events : List Event) :
    (afterScript engine events).page =
      { windowMathJax := mathJaxConfig, typesetCalls := 0 } := by
  unfold afterScript
  rw [run_page_absent engine _ events runScript_subscribers_initial rfl]
  rfl

theorem afterEngineStart_subscribers (global : JSValue) (engine : Engine)
    (events : List Event) :
    (afterEngineStart global engine events).subscribers = [typesetHandler] := by
  unfold afterEngineStart
  rw [run_subscribers]
  rfl

theorem afterEngineStart_page (global : JSValue) (engine : Engine) (events : List Event)
    (hg : (global.get "typesetPromise").isCallable = true) :
    (afterEngineStart global engine events).page =
      { windowMathJax := global, typesetCalls := signalCount events } := by
  unfold afterEngineStart
  rw [run_page_single engine (engineStart global (runScript World.initial)) events rfl hg]
  simp [engineStart, runScript, subscribeHandler, subscribe, assignConfig, World.initial]

theorem afterEngineStart_ready (global : JSValue) (engine : Engine) (events : List Event)
    (hg : (global.get "typesetPromise").isCallable = true) :
    (afterEngineStart global engine events).page.typesetReady = true := by
  rw [afterEngineStart_page global engine events hg]
  exact hg

theorem signalCount_map_signal (signals : List JSValue) :
    signalCount (signals.map Event.signal) = signals.length := by
  induction signals with
  | nil => rfl
  | cons v vs ih =>
    simp only [signalCount, List.map_cons, List.filter, Event.isSignal, List.length_cons] at ih ⊢
    omega

theorem deliver_typesetCalls (engine : Engine) (value : JSValue) (w : World)
    (h : w.subscribers = [typesetHandler]) (hr : w.page.typesetReady = true) :
    (deliver engine value w).page.typesetCalls = w.page.typesetCalls + 1 := by
  rw [deliver_single engine value w h, invoke_typesetHandler_page engine value w hr]

theorem deliver_ready (engine : Engine) (value : JSValue) (w : World)
    (h : w.subscribers = [typesetHandler]) (hr : w.page.typesetReady = true) :
    (deliver engine value w).page.typesetReady = true := by
  rw [deliver_single engine value w h, invoke_typesetHandler_page engine value w hr]
  exact hr

theorem deliver_escaped_returned (engine : Engine) (value : JSValue) (w : World) (d : Deferred)
    (h : w.subscribers = [typesetHandler]) (hr : w.page.typesetReady = true)
    (hd : engine w.page.typesetCalls = CallOutcome.returned d) :
    (deliver engine value w).escaped = w.escaped := by
  rw [deliver_single engine value w h]
  simp [invoke, typesetHandler, hr, hd]

theorem deliver_escaped_threw (engine : Engine) (value : JSValue) (w : World) (e : JSValue)
    (h : w.subscribers = [typesetHandler]) (hr : w.page.typesetReady = true)
    (he : engine w.page.typesetCalls = CallOutcome.threw e) :
    (deliver engine value w).escaped = w.escaped ++ [e] := by
  rw [deliver_single engine value w h]
  simp [invoke, typesetHandler, hr, he]

/-! ## The navigation handler -/

/-- C1, as stated, fails: right after the script has run, the global `MathJax` is the
literal of lines 1-14, which has no `typesetPromise`; a navigation-complete signal then
makes the handler raise a `TypeError` and no call of `typesetPromise` is made, so one
signal gives zero calls, and three signals give zero calls. -/
theorem no_typeset_call_on_assigned_literal :
    (runScript World.initial).page.windowMathJax.get "typesetPromise" = undefined ∧
    (runScript World.initial).page.typesetReady = false ∧
    (afterScript (fun _ => CallOutcome.returned Deferred.pending)
      [Event.signal undefined]).page.typesetCalls = 0 ∧
    (afterScript (fun _ => CallOutcome.returned Deferred.pending)
      [Event.signal undefined]).escaped = [typeError] ∧
    (afterScript (fun _ => CallOutcome.returned Deferred.pending)
      [Event.signal undefined, Event.signal undefined, Event.signal undefined]).page.typesetCalls
        = 0 :=
  ⟨rfl, rfl, rfl, rfl, rfl⟩

/-- C1, amended: once the script has run on a fresh page and the engine has started,
leaving in the global `MathJax` a value whose `typesetPromise` is a function,
`MathJax.typesetPromise` has been called exactly as many times as navigation-complete
signals were delivered: `N` signals, whatever values they carry, give `N` calls; this
holds for every engine (deferred values still pending included) and with settlements of
earlier passes in between; and each single delivery adds exactly one call. -/
theorem typeset_calls_eq_signal_count (global : JSValue) (engine : Engine)
    (hg : (global.get "typesetPromise").isCallable = true) :
    (∀ signals : List JSValue,
      (afterEngineStart global engine (signals.map Event.signal)).page.typesetCalls
        = signals.length) ∧
    (∀ events : List Event,
      (afterEngineStart global engine events).page.typesetCalls = signalCount events) ∧
    (∀ (events : List Event) (value : JSValue),
      (deliver engine value (afterEngineStart global engine events)).page.typesetCalls =
        (afterEngineStart global engine events).page.typesetCalls + 1) := by
  refine ⟨?_, ?_, ?_⟩
  · intro signals
    rw [afterEngineStart_page global engine _ hg, signalCount_map_signal]
  · intro events
    rw [afterEngineStart_page global engine _ hg]
  · intro events value
    exact deliver_typesetCalls engine value _
      (afterEngineStart_subscribers global engine events)
      (afterEngineStart_ready global engine events hg)

/-- A run of C1 (amended): with the engine started, two signals with a settlement in
between, the first pass still pending, give two calls. -/
theorem typeset_calls_eq_signal_count_witness :
    (startedGlobal.get "typesetPromise").isCallable = true ∧
    (afterEngineStart startedGlobal (fun _ => CallOutcome.returned Deferred.pending)
      [Event.signal undefined, Event.settle 0 (Deferred.resolved undefined),
        Event.signal (str "page")]).page.typesetCalls = 2 :=
  ⟨rfl, (typeset_calls_eq_signal_count startedGlobal
    (fun _ => CallOutcome.returned Deferred.pending) rfl).2.1
      [Event.signal undefined, Event.settle 0 (Deferred.resolved undefined),
        Event.signal (str "page")]⟩

/-- C2, as stated, fails: when the call `MathJax.typesetPromise()` throws synchronously,
the handler does not complete normally; it raises that exception, which reaches the
signal source. -/
theorem handler_raises_on_synchronous_throw :
    (engineStart startedGlobal (runScript World.initial)).page.typesetReady = true ∧
    (typesetHandler (fun _ => CallOutcome.threw (str "typeset failed")) undefined
        (engineStart startedGlobal (runScript World.initial)).page).2
      = Completion.abrupt (str "typeset failed") ∧
    (typesetHandler (fun _ => CallOutcome.threw (str "typeset failed")) undefined
        (engineStart startedGlobal (runScript World.initial)).page).2.raised = true ∧
    (deliver (fun _ => CallOutcome.threw (str "typeset failed")) undefined
        (engineStart startedGlobal (runScript World.initial))).escaped
      = [str "typeset failed"] :=
  ⟨rfl, rfl, rfl, rfl⟩

/-- C2, amended: in every state reached after the script has run and the engine has
started (the global `MathJax` has a function `typesetPromise`), whatever the outcome of
the handler's call, the handler is still subscribed afterwards, a later settlement of
the deferred value (resolution or rejection) changes nothing, and the next signal issues
exactly one call.  The handler completes without raising when the call returns a deferred
value; when the call throws synchronously the handler raises that exception, which
reaches the signal source. -/
theorem subscription_survives_every_outcome (global : JSValue) (engine : Engine)
    (events : List Event) (value next : JSValue)
    (hg : (global.get "typesetPromise").isCallable = true) :
    (∀ d, engine (afterEngineStart global engine events).page.typesetCalls
        = CallOutcome.returned d →
      (typesetHandler engine value (afterEngineStart global engine events).page).2
          = Completion.normal undefined ∧
        (deliver engine value (afterEngineStart global engine events)).escaped
          = (afterEngineStart global engine events).escaped) ∧
    (∀ e, engine (afterEngineStart global engine events).page.typesetCalls
        = CallOutcome.threw e →
      (typesetHandler engine value (afterEngineStart global engine events).page).2
          = Completion.abrupt e ∧
        (deliver engine value (afterEngineStart global engine events)).escaped
          = (afterEngineStart global engine events).escaped ++ [e]) ∧
    (deliver engine value (afterEngineStart global engine events)).subscribers
      = [typesetHandler] ∧
    (∀ (call : Nat) (result : Deferred),
      step engine (deliver engine value (afterEngineStart global engine events))
          (Event.settle call result)
        = deliver engine value (afterEngineStart global engine events)) ∧
    (deliver engine next
        (deliver engine value (afterEngineStart global engine events))).page.typesetCalls
      = (deliver engine value (afterEngineStart global engine events)).page.typesetCalls + 1 := by
  have hsub : (afterEngineStart global engine events).subscribers = [typesetHandler] :=
    afterEngineStart_subscribers global engine events
  have hr : (afterEngineStart global engine events).page.typesetReady = true :=
    afterEngineStart_ready global engine events hg
  have hsub1 : (deliver engine value (afterEngineStart global engine events)).subscribers
      = [typesetHandler] := (deliver_subscribers engine value _).trans hsub
  have hr1 : (deliver engine value (afterEngineStart global engine events)).page.typesetReady
      = true := deliver_ready engine value _ hsub hr
  refine ⟨?_, ?_, hsub1, ?_, ?_⟩
  · intro d hd
    refine ⟨?_, deliver_escaped_returned engine value _ d hsub hr hd⟩
    simp [typesetHandler, hr, hd]
  · intro e he
    refine ⟨?_, deliver_escaped_threw engine value _ e hsub hr he⟩
    simp [typesetHandler, hr, he]
  · intro call result
    rfl
  · exact deliver_typesetCalls engine next _ hsub1 hr1

/-- A run of C2 (amended): the first pass returns a deferred value that is later rejected;
the handler completed normally, nothing reached the signal source, and the next signal
issues one more call. -/
theorem subscription_survives_every_outcome_witness :
    (startedGlobal.get "typesetPromise").isCallable = true ∧
    (typesetHandler (fun _ => CallOutcome.returned Deferred.pending) undefined
        (afterEngineStart startedGlobal
          (fun _ => CallOutcome.returned Deferred.pending) []).page).2
      = Completion.normal undefined ∧
    (afterEngineStart startedGlobal (fun _ => CallOutcome.returned Deferred.pending)
        [Event.signal undefined, Event.settle 0 (Deferred.rejected (str "typeset failed")),
          Event.signal undefined]).page.typesetCalls = 2 :=
  ⟨rfl, ((subscription_survives_every_outcome startedGlobal
      (fun _ => CallOutcome.returned Deferred.pending) [] undefined undefined rfl).1
      Deferred.pending rfl).1, rfl⟩

/-- C3: run once on a fresh page, the script registers exactly one handler on `document$`,
the arrow function of lines 16-20, and calls `MathJax.typesetPromise` zero times while it
loads; on any page it adds exactly one subscriber and makes no call; and as long as the
handler is not subscribed no event makes a call. -/
theorem script_registers_one_handler :
    (runScript World.initial).subscribers = [typesetHandler] ∧
    (runScript World.initial).subscribers.length = 1 ∧
    (runScript World.initial).page.typesetCalls = 0 ∧
    (runScript World.initial).escaped = [] ∧
    (∀ w : World, (runScript w).subscribers = w.subscribers ++ [typesetHandler]) ∧
    (∀ w : World, (runScript w).page.typesetCalls = w.page.typesetCalls) ∧
    (∀ (engine : Engine) (events : List Event),
      (run engine World.initial events).page.typesetCalls = 0) := by
  refine ⟨rfl, rfl, rfl, rfl, fun _ => rfl, fun _ => rfl, ?_⟩
  intro engine events
  rw [run_no_subscribers engine World.initial events rfl]
  rfl

/-- C4: the handler does not depend on the deferred value its call returns.  On a page
where the call can be made (the global `MathJax` has a function `typesetPromise`), for
two engines that return any two deferred values, the handler ends the same way (normally,
with `undefined`), leaves the same page state and the same world, and has made exactly
one call; a later settlement of the deferred value adds no call. -/
theorem handler_ignores_deferred (engine1 engine2 : Engine) (d1 d2 : Deferred)
    (value : JSValue) (w : World) (call : Nat) (result : Deferred)
    (hw : w.subscribers = [typesetHandler])
    (hr : w.page.typesetReady = true)
    (h1 : engine1 w.page.typesetCalls = CallOutcome.returned d1)
    (h2 : engine2 w.page.typesetCalls = CallOutcome.returned d2) :
    typesetHandler engine1 value w.page = typesetHandler engine2 value w.page ∧
    (typesetHandler engine1 value w.page).2 = Completion.normal undefined ∧
    (typesetHandler engine1 value w.page).1.typesetCalls = w.page.typesetCalls + 1 ∧
    (typesetHandler engine1 value w.page).1.windowMathJax = w.page.windowMathJax ∧
    deliver engine1 value w = deliver engine2 value w ∧
    (step engine1 (deliver engine1 value w) (Event.settle call result)).page.typesetCalls
      = w.page.typesetCalls + 1 := by
  refine ⟨?_, ?_, ?_, ?_, ?_, ?_⟩
  · simp [typesetHandler, hr, h1, h2]
  · simp [typesetHandler, hr, h1]
  · simp [typesetHandler, hr, h1]
  · simp [typesetHandler, hr, h1]
  · rw [deliver_single engine1 value w hw, deliver_single engine2 value w hw]
    simp [invoke, typesetHandler, hr, h1, h2]
  · exact deliver_typesetCalls engine1 value w hw hr

/-- A run of C4: a pending deferred value against one rejected with an error. -/
theorem handler_ignores_deferred_witness :
    typesetHandler (fun _ => CallOutcome.returned Deferred.pending) undefined
        (engineStart startedGlobal (runScript World.initial)).page
      = typesetHandler (fun _ => CallOutcome.returned (Deferred.rejected (str "typeset failed")))
        undefined (engineStart startedGlobal (runScript World.initial)).page ∧
    (typesetHandler (fun _ => CallOutcome.returned Deferred.pending) undefined
        (engineStart startedGlobal (runScript World.initial)).page).1.typesetCalls = 1 :=
  ⟨(handler_ignores_deferred (fun _ => CallOutcome.returned Deferred.pending)
      (fun _ => CallOutcome.returned (Deferred.rejected (str "typeset failed")))
      Deferred.pending (Deferred.rejected (str "typeset failed")) undefined
      (engineStart startedGlobal (runScript World.initial)) 0 Deferred.pending
      rfl rfl rfl rfl).1,
   (handler_ignores_deferred (fun _ => CallOutcome.returned Deferred.pending)
      (fun _ => CallOutcome.returned (Deferred.rejected (str "typeset failed")))
      Deferred.pending (Deferred.rejected (str "typeset failed")) undefined
      (engineStart startedGlobal (runScript World.initial)) 0 Deferred.pending
      rfl rfl rfl rfl).2.2.1⟩

/-! ## The configuration record -/

/-- C5: the script is the assignment followed by the subscription; the assignment stores
the complete literal in one step, whatever was there, and when it is made nobody is
subscribed yet; the handler never writes `window.MathJax`; so after the script has run on
a fresh page, in every state reached by any events, `window.MathJax` is the literal, with
its `tex`, `loader` and `options` sections. -/
theorem config_write_once (engine : Engine) (events : List Event) :
    (∀ w : World, runScript w = subscribeHandler (assignConfig w)) ∧
    (∀ w : World, (assignConfig w).page.windowMathJax = mathJaxConfig) ∧
    (assignConfig World.initial).subscribers = [] ∧
    (∀ (value : JSValue) (page : PageState),
      (typesetHandler engine value page).1.windowMathJax = page.windowMathJax) ∧
    (afterScript engine events).page.windowMathJax = mathJaxConfig ∧
    (afterScript engine events).page.windowMathJax.keys = ["tex", "loader", "options"] := by
  refine ⟨fun _ => rfl, fun _ => rfl, rfl, ?_, ?_, ?_⟩
  · intro value page
    unfold typesetHandler
    split
    · cases engine page.typesetCalls <;> rfl
    · rfl
  · rw [afterScript_page]
  · rw [afterScript_page]
    rfl

/-- C6: `tex.inlineMath` is the one-element array holding the pair `\(`, `\)` and
`tex.displayMath` the one-element array holding the pair `\[`, `\]`; each marker is two
characters, a backslash (code 92) and the bracket; neither array holds another pair, in
particular not the dollar pairs. -/
theorem delimiters_exact :
    texSection.get "inlineMath" = arr [arr [str "\\(", str "\\)"]] ∧
    texSection.get "displayMath" = arr [arr [str "\\[", str "\\]"]] ∧
    inlineDelimiters = [("\\(", "\\)")] ∧
    displayDelimiters = [("\\[", "\\]")] ∧
    "\\(".data = [Char.ofNat 92, '('] ∧ "\\)".data = [Char.ofNat 92, ')'] ∧
    "\\[".data = [Char.ofNat 92, '['] ∧ "\\]".data = [Char.ofNat 92, ']'] ∧
    (∀ p ∈ inlineDelimiters, p = ("\\(", "\\)")) ∧
    (∀ p ∈ displayDelimiters, p = ("\\[", "\\]")) ∧
    ("$", "$") ∉ inlineDelimiters ∧ ("$", "$") ∉ displayDelimiters ∧
    ("$$", "$$") ∉ inlineDelimiters ∧ ("$$", "$$") ∉ displayDelimiters := by
  refine ⟨rfl, rfl, rfl, rfl, rfl, rfl, rfl, rfl, ?_, ?_, ?_, ?_, ?_, ?_⟩ <;> decide

/-- C7: `tex.packages` is an object with the single key `[+]`, whose value is the
one-element array holding `mhchem`: one package is added, there is no `[-]` key and the
setting is not a replacement list. -/
theorem packages_additive_only :
    texSection.get "packages" = obj [("[+]", arr [str "mhchem"])] ∧
    (texSection.get "packages").keys = ["[+]"] ∧
    (texSection.get "packages").get "[+]" = arr [str "mhchem"] ∧
    addedPackages = ["mhchem"] ∧
    (texSection.get "packages").hasKey "[-]" = false ∧
    (texSection.get "packages").get "[-]" = undefined ∧
    (texSection.get "packages").elems = none :=
  ⟨rfl, rfl, rfl, rfl, rfl, rfl, rfl⟩

/-- C8: `loader.load` has exactly one entry, `[tex]/mhchem`, the module path of the
package `mhchem` that `tex.packages` adds; every added package has its module path in
`loader.load` and every entry of `loader.load` is the module path of an added package. -/
theorem loader_matches_packages :
    loaderSection.get "load" = arr [str "[tex]/mhchem"] ∧
    loadedModules = ["[tex]/mhchem"] ∧
    loadedModules.length = 1 ∧
    loadedModules = addedPackages.map texModulePath ∧
    (∀ p ∈ addedPackages, texModulePath p ∈ loadedModules) ∧
    (∀ m ∈ loadedModules, ∃ p ∈ addedPackages, m = texModulePath p) := by
  refine ⟨rfl, rfl, rfl, ?_, ?_, ?_⟩ <;> decide

/-- C9: `tex.processEscapes` and `tex.processEnvironments` are both the boolean `true`. -/
theorem process_flags_true :
    texSection.get "processEscapes" = bool true ∧
    texSection.get "processEnvironments" = bool true :=
  ⟨rfl, rfl⟩

/-! ## The class-name patterns -/

/-- C10, as stated, fails: the ignore pattern `.*|` does not match the class name made of
the single character U+2028 (a line terminator, which the wildcard does not match, and
not a separator of class names). -/
theorem ignore_pattern_misses_line_separator :
    optionsSection.get "ignoreHtmlClass" = str ".*|" ∧
    isLineTerminator (Char.ofNat 8232) = true ∧
    matchesClassName ".*|" (String.singleton (Char.ofNat 8232)) = false := by
  refine ⟨rfl, ?_, ?_⟩ <;> decide

/-- C10, amended: the `options` section has exactly the two keys `ignoreHtmlClass`, with
the text `.*|`, and `processHtmlClass`, with the text `arithmatex`.  Matched against a
whole class name, the ignore pattern matches every class name without a line terminator
(LF, CR, U+2028, U+2029), the empty one included, and no other; the process pattern
matches `arithmatex` and no other class name, so neither `arithmatexx` nor `math`. -/
theorem options_patterns :
    optionsSection.keys = ["ignoreHtmlClass", "processHtmlClass"] ∧
    optionsSection.get "ignoreHtmlClass" = str ".*|" ∧
    optionsSection.get "processHtmlClass" = str "arithmatex" ∧
    (∀ name : String,
      matchesClassName ".*|" name = true ↔ ∀ c ∈ name.data, isLineTerminator c = false) ∧
    matchesClassName ".*|" "" = true ∧
    (∀ name : String, matchesClassName "arithmatex" name = true ↔ name = "arithmatex") ∧
    matchesClassName "arithmatex" "arithmatexx" = false ∧
    matchesClassName "arithmatex" "math" = false := by
  have hignore : parsePattern ".*|"
      = some (Regex.alt (Regex.seq (Regex.star Regex.dot) Regex.empty) Regex.empty) := by
    rfl
  have hprocess : parsePattern "arithmatex"
      = some (Regex.ofTerms ("arithmatex".data.map Regex.char)) := by
    rfl
  refine ⟨rfl, rfl, rfl, ?_, by decide, ?_, by decide, by decide⟩
  · intro name
    unfold matchesClassName
    rw [hignore]
    simp only [Regex.fullMatch_alt, Regex.fullMatch_seq_empty_right, Bool.or_eq_true,
      Regex.fullMatch_star_dot, Regex.fullMatch_empty]
    constructor
    · rintro (h | h)
      · exact h
      · intro c hc
        rw [h] at hc
        cases hc
    · intro h
      exact Or.inl h
  · intro name
    unfold matchesClassName
    rw [hprocess]
    simp only [Regex.fullMatch_literal]
    constructor
    · intro h
      exact String.ext h
    · intro h
      rw [h]

end Moose
